import Mathlib

/-!
Shallow embedding of the order coordination and reconciliation core of the
`ritmex-bot` repository, together with theorems settling the specification
claims about it.

Conventions of the embedding:
* TypeScript numbers are modelled as `ℚ`; `Option ℚ` is used where a value can
  be `NaN`/`±Infinity`/absent (`none` models all non-finite cases).
* A price string (TypeScript keeps prices as strings to avoid precision loss)
  is modelled as `PriceStr`: the literal string together with the value
  `Number(repr)` that JavaScript would parse from it (`none` for `NaN`).
* `Record<string, T>` lock/timer/pending maps are modelled as total functions
  `String → T` updated pointwise.
* `async` venue calls are modelled by passing their outcome
  (`Except JsError α`) as an argument; a function's observable effects
  (state updates, submitted parameters, cancelled ids, log entries) are
  returned in a result structure.
* `setTimeout` auto-unlock timers are modelled as a deadline per key
  (`timers : String → Option ℕ`) plus `advanceTimers`, which fires every
  expired timer exactly the way the registered callback does.
-/

namespace Ritmex

/-- Order side, `"BUY" | "SELL"` in the source. -/
inductive Side where
  | buy
  | sell
deriving DecidableEq, Repr

/-- Position direction, `"long" | "short"` in the source. -/
inductive Dir where
  | long
  | short
deriving DecidableEq, Repr

/-- A JavaScript numeric string: the literal string `repr` together with
`val = Number(repr)`, where `none` models `NaN` (non-numeric / non-finite). -/
structure PriceStr where
  repr : String
  val : Option ℚ
deriving DecidableEq, Repr

/-- Embeds `AsterOrder` from `src/exchanges/types` (the fields used by the core).
`updateTime`/`time` are JavaScript numbers used only through `a || b || 0`,
so `0` faithfully models the absent/falsy case. -/
structure AsterOrder where
  orderId : ℕ
  side : Side
  otype : String
  price : PriceStr
  stopPrice : PriceStr
  reduceOnly : Bool
  updateTime : ℕ
  time : ℕ
  status : String
deriving DecidableEq, Repr

/-- Embeds `OrderTarget` from `src/core/lib/order-plan.ts`. -/
structure OrderTarget where
  side : Side
  price : PriceStr
  amount : ℚ
  reduceOnly : Bool
deriving DecidableEq, Repr

/-- The dust threshold `1e-5` used by the planner and the engines (`EPS`). -/
def EPS : ℚ := 1 / 100000

/-! ## OrderPlanner: `makeOrderPlan` (src/core/lib/order-plan.ts) -/

/-- The matching predicate of `makeOrderPlan`: side equal, reduceOnly equal,
and price equal — by `|orderPrice - targetPrice| <= tolerance` when
`tolerance > 0` and both prices parse to finite numbers, by exact string
comparison otherwise. -/
def targetMatches (tolerance : ℚ) (o : AsterOrder) (t : OrderTarget) : Bool :=
  let priceEqual : Bool :=
    match o.price.val, t.price.val with
    | some op, some tp =>
        if 0 < tolerance then decide (|op - tp| ≤ tolerance)
        else decide (o.price.repr = t.price.repr)
    | _, _ => decide (o.price.repr = t.price.repr)
  decide (t.side = o.side) && decide (t.reduceOnly = o.reduceOnly) && priceEqual

/-- Embeds `targets.findIndex((target, index) => unmatched.has(index) && …)`,
scanning the index-annotated target list. -/
def findMatchIdx (tolerance : ℚ) (unmatched : List ℕ) (o : AsterOrder) :
    List (ℕ × OrderTarget) → Option ℕ
  | [] => none
  | (i, t) :: rest =>
      if i ∈ unmatched ∧ targetMatches tolerance o t = true then some i
      else findMatchIdx tolerance unmatched o rest

/-- The `for (const order of openOrders)` loop of `makeOrderPlan`: each order
consumes the first still-unmatched target it matches, otherwise it joins
`toCancel`.  The JavaScript `Set` of unmatched indices iterates in insertion
order, which is modelled by a `List ℕ` kept in that order. -/
def planLoop (tolerance : ℚ) (targets : List OrderTarget) :
    List AsterOrder → List ℕ → List AsterOrder × List ℕ
  | [], unmatched => ([], unmatched)
  | o :: rest, unmatched =>
      match findMatchIdx tolerance unmatched o targets.enum with
      | some i => planLoop tolerance targets rest (unmatched.erase i)
      | none =>
          let r := planLoop tolerance targets rest unmatched
          (o :: r.1, r.2)

/-- Result of `makeOrderPlan`. -/
structure OrderPlan where
  toCancel : List AsterOrder
  toPlace : List OrderTarget
deriving DecidableEq, Repr

/-- Embeds `makeOrderPlan(openOrders, targets, opts)`.  `priceToleranceAbs` is
`none` when the option is absent or non-finite; the source clamps it with
`Math.max(0, …)`. -/
def makeOrderPlan (openOrders : List AsterOrder) (targets : List OrderTarget)
    (priceToleranceAbs : Option ℚ) : OrderPlan :=
  let tolerance := max 0 (priceToleranceAbs.getD 0)
  let r := planLoop tolerance targets openOrders (List.range targets.length)
  { toCancel := r.1
    toPlace := (r.2.filterMap fun i => targets.get? i).filter fun t => EPS < t.amount }

/-- The matching key used when the price comparison is exact string equality. -/
def orderKey (o : AsterOrder) : Side × Bool × String := (o.side, o.reduceOnly, o.price.repr)

/-- The matching key of a desired target. -/
def targetKey (t : OrderTarget) : Side × Bool × String := (t.side, t.reduceOnly, t.price.repr)

/-! ## Top-of-book sanitation (src/utils/price.ts) and PnL (src/utils/pnl.ts) -/

/-- Embeds `AsterDepth` as consumed by `getTopPrices`: price levels are
`[price, qty]` string arrays; only indices `[0][0]` are read, through
optional chaining. -/
structure AsterDepth where
  bids : List (List PriceStr)
  asks : List (List PriceStr)
deriving DecidableEq, Repr

/-- Embeds `Number(depth?.bids?.[0]?.[0])`: `none` models the `NaN` outcomes
(missing depth, empty book, empty level, or a non-numeric string). -/
def rawTopBid (depth : Option AsterDepth) : Option ℚ :=
  ((depth.bind fun d => d.bids.head?).bind List.head?).bind PriceStr.val

/-- Embeds `Number(depth?.asks?.[0]?.[0])`, see `rawTopBid`. -/
def rawTopAsk (depth : Option AsterDepth) : Option ℚ :=
  ((depth.bind fun d => d.asks.head?).bind List.head?).bind PriceStr.val

/-- Embeds `Number.isFinite(x) && x > 0 ? x : null`. -/
def sanitizePrice (x : Option ℚ) : Option ℚ :=
  match x with
  | some q => if 0 < q then some q else none
  | none => none

/-- Embeds `getTopPrices(depth)` returning `(topBid, topAsk)`. -/
def getTopPrices (depth : Option AsterDepth) : Option ℚ × Option ℚ :=
  (sanitizePrice (rawTopBid depth), sanitizePrice (rawTopAsk depth))

/-- Embeds `PositionSnapshot` from `src/utils/strategy.ts` (fields used here).
All fields are finite rationals; the `entryPrice` validity checks of the
engine are made against the explicit thresholds below. -/
structure PositionSnapshot where
  positionAmt : ℚ
  entryPrice : ℚ
  markPrice : ℚ
deriving DecidableEq, Repr

/-- Embeds `computePositionPnl(position, bestBid, bestAsk)` from `src/utils/pnl.ts`.
`bestBid`/`bestAsk` are `none` when absent, `null`, or non-finite: in the
source `Number(undefined) = NaN` and `Number(null) = 0` both fail the
`Number.isFinite(priceNum) && priceNum > 0` guard, so they are observationally
identical to a non-positive quote. -/
def computePositionPnl (position : PositionSnapshot)
    (bestBid bestAsk : Option ℚ) : ℚ :=
  let priceForPnl := if 0 < position.positionAmt then bestBid else bestAsk
  match priceForPnl with
  | none => 0
  | some p =>
      if p ≤ 0 then 0
      else if 0 < position.positionAmt then (p - position.entryPrice) * |position.positionAmt|
      else (position.entryPrice - p) * |position.positionAmt|

/-! ## OrderCoordinator state (src/core/order-coordinator.ts) -/

/-- A venue error as classified by the core.  `isUnknownOrder` models
`isUnknownOrderError(err)` from `src/utils/errors.ts` (only its callers are in
the provided sources; the spec's failure taxonomy defines the class). -/
structure JsError where
  isUnknownOrder : Bool
  msg : String
deriving DecidableEq, Repr

/-- Pointwise update of a string-keyed record. -/
def updateKey {α : Type} (f : String → α) (k : String) (v : α) : String → α :=
  fun k' => if k' = k then v else f k'

/-- The coordinator's per-order-class maps: `OrderLockMap`, `OrderTimerMap`
(a pending `setTimeout` deadline, `none` when no timer is pending), and
`OrderPendingMap`. -/
structure CoordState where
  locks : String → Bool
  timers : String → Option ℕ
  pendings : String → Option String

/-- Embeds `isOperating(locks, type)`. -/
def isOperating (st : CoordState) (type : String) : Bool :=
  st.locks type

/-- Embeds `lockOperating(locks, timers, pendings, type, log, timeout)`: sets the
lock and (re)arms the expiry timer; the registered callback clears the lock
and the pending id (see `advanceTimers`).  The source's default timeout is
3000 ms. -/
def lockOperating (st : CoordState) (type : String) (now timeout : ℕ) : CoordState :=
  { locks := updateKey st.locks type true
    timers := updateKey st.timers type (some (now + timeout))
    pendings := st.pendings }

/-- Embeds `unlockOperating(locks, timers, pendings, type)`: clears lock, pending id
and cancels the timer. -/
def unlockOperating (st : CoordState) (type : String) : CoordState :=
  { locks := updateKey st.locks type false
    timers := updateKey st.timers type none
    pendings := updateKey st.pendings type none }

/-- Fires every expired `setTimeout` callback registered by `lockOperating`:
at time `t`, each key whose deadline is `≤ t` has its lock forced to `false`
and its pending id cleared, exactly as the callback body does. -/
def advanceTimers (st : CoordState) (t : ℕ) : CoordState :=
  { locks := fun k =>
      match st.timers k with
      | some d => if d ≤ t then false else st.locks k
      | none => st.locks k
    timers := fun k =>
      match st.timers k with
      | some d => if d ≤ t then none else some d
      | none => none
    pendings := fun k =>
      match st.timers k with
      | some d => if d ≤ t then none else st.pendings k
      | none => st.pendings k }

/-! ## `deduplicateOrders` (src/core/order-coordinator.ts, lines 82–123) -/

/-- ASCII uppercase of one character, as `String.prototype.toUpperCase`
acts on the ASCII order-type strings of this codebase. -/
def jsCharUpper (c : Char) : Char :=
  if 'a' ≤ c ∧ c ≤ 'z' then Char.ofNat (c.toNat - 32) else c

/-- Embeds `String.prototype.toUpperCase` (ASCII). -/
def jsToUpper (s : String) : String :=
  ⟨s.data.map jsCharUpper⟩

/-- Embeds `b.updateTime || b.time || 0`: JavaScript `||` takes the first truthy
(nonzero) operand. -/
def jsTs (o : AsterOrder) : ℕ :=
  if o.updateTime ≠ 0 then o.updateTime else o.time

/-- The sort comparator `(a, b) => (b.updateTime || b.time || 0) - (a.updateTime || a.time || 0)`:
`a` may precede `b` exactly when the comparator is `≤ 0`, i.e. descending by
timestamp.  The stable sort is modelled with `List.insertionSort`; the spec
leaves the order of timestamp ties implementation-defined. -/
def dedupRel (a b : AsterOrder) : Prop :=
  jsTs b ≤ jsTs a

instance : DecidableRel dedupRel := fun a b => Nat.decLe (jsTs b) (jsTs a)

instance : IsTotal AsterOrder dedupRel :=
  ⟨fun a b => (Nat.le_total (jsTs b) (jsTs a)).imp id id⟩

instance : IsTrans AsterOrder dedupRel :=
  ⟨fun _ _ _ h h' => Nat.le_trans h' h⟩

/-- The filter of `deduplicateOrders`: exact `(type, side)` match on the
upper-cased order type, or — for `type = "STOP_MARKET"` — a stop-like order
(finite positive `stopPrice`) of the same side. -/
def sameTypeOrder (type : String) (side : Side) (o : AsterOrder) : Bool :=
  let normalizedType := jsToUpper o.otype
  let isStopLike : Bool :=
    match o.stopPrice.val with
    | some v => decide (0 < v)
    | none => false
  let matchesStop : Bool := decide (type = "STOP_MARKET") && isStopLike && decide (o.side = side)
  let exactMatch : Bool := decide (normalizedType = type) && decide (o.side = side)
  exactMatch || matchesStop

/-- Observable effects of `deduplicateOrders`: the final lock state, the
orders passed to the bulk `adapter.cancelOrders` call (empty when no call was
made), and the emitted log entries `(category, message)`. -/
structure DedupResult where
  state : CoordState
  toCancel : List AsterOrder
  cancelledIds : List ℕ
  logs : List (String × String)

/-- Embeds `deduplicateOrders(adapter, symbol, openOrders, locks, timers, pendings,
type, side, log)`.  `cancelResult` is the outcome of the awaited
`adapter.cancelOrders` call. -/
def deduplicateOrders (openOrders : List AsterOrder) (type : String) (side : Side)
    (cancelResult : Except JsError Unit) (st : CoordState) (now : ℕ) : DedupResult :=
  let sameTypeOrders := openOrders.filter (sameTypeOrder type side)
  if sameTypeOrders.length ≤ 1 then ⟨st, [], [], []⟩
  else
    let sorted := sameTypeOrders.insertionSort dedupRel
    let toCancel := sorted.drop 1
    let orderIdList := toCancel.map AsterOrder.orderId
    if orderIdList = [] then ⟨st, [], [], []⟩
    else
      let locked := lockOperating st type now 3000
      let logs : List (String × String) :=
        match cancelResult with
        | .ok _ => [("order", "去重撤销重复单")]
        | .error e =>
            if e.isUnknownOrder then [("order", "去重时发现订单已不存在，跳过删除")]
            else [("error", "去重撤单失败")]
      ⟨unlockOperating locked type, toCancel, orderIdList, logs⟩

/-! ## Spec-modelled numeric helpers

`roundDownToTick`, `roundQtyDownToStep` (src/utils/math.ts) and
`calcStopLossPrice` (src/utils/strategy.ts) are imported by the coordinator
but their source files are not part of the provided sources. -/

/-- Modelled from the spec: `roundDownToTick` from `src/utils/math.ts` is
missing from the sources; §4.3 rounds trigger prices to the tick, downward
per the name — the largest multiple of `tick` not above `p`. -/
def roundDownToTick (p tick : ℚ) : ℚ :=
  if 0 < tick then tick * ⌊p / tick⌋ else p

/-- Modelled from the spec: `roundQtyDownToStep` from `src/utils/math.ts` is
missing from the sources; quantities are floored to the venue's step. -/
def roundQtyDownToStep (q step : ℚ) : ℚ :=
  if 0 < step then step * ⌊q / step⌋ else q

/-- Modelled from the spec: `calcStopLossPrice` from `src/utils/strategy.ts`
is missing from the sources.  Spec §4.3/§8 and the source comment
"SELL STOP at entry - loss/qty": a long stop sits `lossLimit/qty` below the
entry, a short stop the same distance above it. -/
def calcStopLossPrice (entry qty : ℚ) (dir : Dir) (lossLimit : ℚ) : ℚ :=
  match dir with
  | .long => entry - lossLimit / qty
  | .short => entry + lossLimit / qty

/-! ## Order submission parameters -/

/-- Embeds `CreateOrderParams` from `src/exchanges/types` (the fields the
coordinator sets; unset optional fields are `none`). -/
structure CreateOrderParams where
  symbol : String
  side : Side
  otype : String
  quantity : ℚ
  price : Option ℚ
  stopPrice : Option ℚ
  reduceOnly : Option String
  closePosition : Option String
  timeInForce : Option String
  triggerType : Option String
deriving DecidableEq, Repr

/-! ## `placeOrder` (src/core/order-coordinator.ts, lines 131–178) -/

/-- Observable effects of a placement primitive: the final coordinator state,
ids cancelled by the embedded dedupe pass, the parameters submitted to
`adapter.createOrder` (`none` when the call never reached submission), log
entries, and the outcome — `.ok (some o)` for a returned order, `.ok none`
for a silent no-op / swallowed benign error, `.error e` for a propagated
exception. -/
structure PlaceResult where
  state : CoordState
  dedupCancelledIds : List ℕ
  submitted : Option CreateOrderParams
  logs : List (String × String)
  outcome : Except JsError (Option AsterOrder)

/-- Embeds `placeOrder(adapter, symbol, openOrders, locks, timers, pendings, side,
price, amount, log, reduceOnly, guard, opts)`.

`guardOk` is the result of `enforceMarkPriceGuard` (its callee
`isOrderPriceAllowedByMark` lives in `src/utils/strategy.ts`, outside the
provided sources; the guard's verdict is therefore an input here).
`dedupCancelResult` and `createResult` are the outcomes of the awaited
adapter calls. -/
def placeOrder (st : CoordState) (openOrders : List AsterOrder) (symbol : String)
    (side : Side) (price : PriceStr) (amount : ℚ) (reduceOnly : Bool)
    (guardOk : Bool) (skipDedupe : Bool)
    (dedupCancelResult : Except JsError Unit)
    (createResult : Except JsError AsterOrder)
    (_priceTick qtyStep : ℚ) (now : ℕ) : PlaceResult :=
  let type := "LIMIT"
  if isOperating st type then ⟨st, [], none, [], .ok none⟩
  else if guardOk = false then ⟨st, [], none, [], .ok none⟩
  else
    let params : CreateOrderParams :=
      { symbol := symbol
        side := side
        otype := type
        quantity := roundQtyDownToStep amount qtyStep
        price := price.val
        stopPrice := none
        reduceOnly := if reduceOnly then some "true" else none
        closePosition := none
        timeInForce := some "GTX"
        triggerType := none }
    let d : DedupResult :=
      if skipDedupe then ⟨st, [], [], []⟩
      else deduplicateOrders openOrders type side dedupCancelResult st now
    let st2 := lockOperating d.state type now 3000
    match createResult with
    | .ok o =>
        ⟨{ st2 with pendings := updateKey st2.pendings type (some (toString o.orderId)) },
          d.cancelledIds, some params, d.logs ++ [("order", "挂限价单")], .ok (some o)⟩
    | .error e =>
        let st3 := unlockOperating st2 type
        if e.isUnknownOrder then
          ⟨st3, d.cancelledIds, some params, d.logs ++ [("order", "订单已成交或被撤销，跳过新单")], .ok none⟩
        else ⟨st3, d.cancelledIds, some params, d.logs, .error e⟩

/-! ## `placeStopLossOrder` (src/core/order-coordinator.ts, lines 232–294) -/

/-- Embeds `placeStopLossOrder(adapter, symbol, openOrders, locks, timers, pendings,
side, stopPrice, quantity, lastPrice, log, guard, opts)`.  See `placeOrder`
for the conventions on `guardOk` and the awaited-call outcomes. -/
def placeStopLossOrder (st : CoordState) (openOrders : List AsterOrder) (symbol : String)
    (side : Side) (stopPrice : ℚ) (quantity : ℚ) (lastPrice : Option ℚ)
    (guardOk : Bool)
    (dedupCancelResult : Except JsError Unit)
    (createResult : Except JsError AsterOrder)
    (priceTick qtyStep : ℚ) (now : ℕ) : PlaceResult :=
  let type := "STOP_MARKET"
  if isOperating st type then ⟨st, [], none, [], .ok none⟩
  else if guardOk = false then ⟨st, [], none, [], .ok none⟩
  else if (match lastPrice with
           | some lp =>
               (decide (side = Side.sell) && decide (lp ≤ stopPrice)) ||
                 (decide (side = Side.buy) && decide (stopPrice ≤ lp))
           | none => false : Bool) then
    ⟨st, [], none, [("error", "止损价穿越当前价，取消挂单")], .ok none⟩
  else
    let params : CreateOrderParams :=
      { symbol := symbol
        side := side
        otype := type
        quantity := roundQtyDownToStep quantity qtyStep
        price := none
        stopPrice := some (roundDownToTick stopPrice priceTick)
        reduceOnly := some "true"
        closePosition := some "true"
        timeInForce := some "GTC"
        triggerType := some (if side = .buy then "TAKE_PROFIT" else "STOP_LOSS") }
    let d := deduplicateOrders openOrders type side dedupCancelResult st now
    let st2 := lockOperating d.state type now 3000
    match createResult with
    | .ok o =>
        ⟨{ st2 with pendings := updateKey st2.pendings type (some (toString o.orderId)) },
          d.cancelledIds, some params, d.logs ++ [("stop", "挂止损单")], .ok (some o)⟩
    | .error e =>
        let st3 := unlockOperating st2 type
        if e.isUnknownOrder then
          ⟨st3, d.cancelledIds, some params, d.logs ++ [("order", "止损单已失效，跳过")], .ok none⟩
        else ⟨st3, d.cancelledIds, some params, d.logs, .error e⟩

/-! ## `placeAtomicDualWithStops` (src/core/order-coordinator.ts, lines 357–524)

Both submission paths build their `CreateOrderParams` inline; the two
builders below transcribe, respectively, the `paramsList` handed to
`adapter.createBulkOrders` and the four argument objects of the sequential
`adapter.createOrder` calls of the fallback branch. -/

/-- The guard options of `placeAtomicDualWithStops` that shape the orders. -/
structure AtomicGuard where
  lossLimitUsd : ℚ
  priceTick : ℚ
  qtyStep : ℚ
  attachStops : Bool
deriving DecidableEq, Repr

/-- The two entry legs shared by both paths. -/
def atomicDualEntryParams (symbol : String) (buyPrice buyAmount sellPrice sellAmount : ℚ)
    (g : AtomicGuard) : List CreateOrderParams :=
  [{ symbol := symbol, side := .buy, otype := "LIMIT"
     quantity := roundQtyDownToStep buyAmount g.qtyStep
     price := some buyPrice, stopPrice := none, reduceOnly := none
     closePosition := none, timeInForce := some "GTX", triggerType := none },
   { symbol := symbol, side := .sell, otype := "LIMIT"
     quantity := roundQtyDownToStep sellAmount g.qtyStep
     price := some sellPrice, stopPrice := none, reduceOnly := none
     closePosition := none, timeInForce := some "GTX", triggerType := none }]

/-- The `paramsList` submitted by the bulk path (lines 385–442): two entries
plus, when `attachStops`, a SELL stop tagged `STOP_LOSS` and a BUY stop
tagged `TAKE_PROFIT`. -/
def atomicDualBulkParams (symbol : String) (buyPrice buyAmount sellPrice sellAmount : ℚ)
    (g : AtomicGuard) : List CreateOrderParams :=
  let entries := atomicDualEntryParams symbol buyPrice buyAmount sellPrice sellAmount g
  if g.attachStops then
    let longQty := roundQtyDownToStep buyAmount g.qtyStep
    let longStop := roundDownToTick (calcStopLossPrice buyPrice longQty .long g.lossLimitUsd) g.priceTick
    let shortQty := roundQtyDownToStep sellAmount g.qtyStep
    let shortStop := roundDownToTick (calcStopLossPrice sellPrice shortQty .short g.lossLimitUsd) g.priceTick
    entries ++
      [{ symbol := symbol, side := .sell, otype := "STOP_MARKET"
         quantity := longQty, price := none, stopPrice := some longStop
         reduceOnly := some "true", closePosition := some "true"
         timeInForce := some "GTC", triggerType := some "STOP_LOSS" },
       { symbol := symbol, side := .buy, otype := "STOP_MARKET"
         quantity := shortQty, price := none, stopPrice := some shortStop
         reduceOnly := some "true", closePosition := some "true"
         timeInForce := some "GTC", triggerType := some "TAKE_PROFIT" }]
  else entries

/-- The four orders submitted one by one on the sequential fallback path
(lines 460–510).  Note line 508: the BUY-side stop is tagged
`triggerType: "STOP_LOSS"` here. -/
def atomicDualSeqParams (symbol : String) (buyPrice buyAmount sellPrice sellAmount : ℚ)
    (g : AtomicGuard) : List CreateOrderParams :=
  let entries := atomicDualEntryParams symbol buyPrice buyAmount sellPrice sellAmount g
  if g.attachStops then
    entries ++
      [{ symbol := symbol, side := .sell, otype := "STOP_MARKET"
         quantity := roundQtyDownToStep buyAmount g.qtyStep
         price := none
         stopPrice := some (roundDownToTick
           (calcStopLossPrice buyPrice (roundQtyDownToStep buyAmount g.qtyStep) .long g.lossLimitUsd)
           g.priceTick)
         reduceOnly := some "true", closePosition := some "true"
         timeInForce := some "GTC", triggerType := some "STOP_LOSS" },
       { symbol := symbol, side := .buy, otype := "STOP_MARKET"
         quantity := roundQtyDownToStep sellAmount g.qtyStep
         price := none
         stopPrice := some (roundDownToTick
           (calcStopLossPrice sellPrice (roundQtyDownToStep sellAmount g.qtyStep) .short g.lossLimitUsd)
           g.priceTick)
         reduceOnly := some "true", closePosition := some "true"
         timeInForce := some "GTC", triggerType := some "STOP_LOSS" }]
  else entries

/-! ## StopLossGuard: `VolumeMakerEngine.ensureStopLossOrder`
(src/strategy/common/session-volume.ts, lines 628–684) -/

/-- Embeds `Math.round`: round half away from zero toward `+∞` (`⌊q + 1/2⌋`). -/
def jsRound (q : ℚ) : ℤ :=
  ⌊q + 1 / 2⌋

/-- Embeds `Math.max(1e-9, config.priceTick)` from line 643. -/
def clampTick (t : ℚ) : ℚ :=
  max (1 / 1000000000) t

/-- The stop side for the current position: a long position is protected by a
SELL stop, anything else by a BUY stop (lines 631–632). -/
def stopSideOf (position : PositionSnapshot) : Side :=
  if 0 < position.positionAmt then .sell else .buy

/-- The `openOrders.find(...)` of lines 638–641: the first order on the stop
side that is a `STOP_MARKET` or carries a finite positive `stopPrice`. -/
def findCurrentStop (openOrders : List AsterOrder) (stopSide : Side) : Option AsterOrder :=
  openOrders.find? fun o =>
    let hasStopPrice : Bool :=
      match o.stopPrice.val with
      | some v => decide (0 < v)
      | none => false
    decide (o.side = stopSide) && (decide (jsToUpper o.otype = "STOP_MARKET") || hasStopPrice)

/-- The tick-rounded recomputed stop target of lines 634–644 (including the
doubled loss limit the volume strategy uses). -/
def volumeStopTarget (lossLimit priceTickCfg : ℚ) (position : PositionSnapshot) : ℚ :=
  let absPosition := |position.positionAmt|
  let direction : Dir := if 0 < position.positionAmt then .long else .short
  let widerLossLimit := lossLimit * 2
  let targetStop := calcStopLossPrice position.entryPrice absPosition direction widerLossLimit
  let priceTick := clampTick priceTickCfg
  (jsRound (targetStop / priceTick) : ℚ) * priceTick

/-- Observable effects of `ensureStopLossOrder`: the matching protective
order it found, the recomputed rounded target, the id it cancelled (if any),
whether a non-benign cancel failure was reported, and whether
`placeStopLossOrder` was invoked (with which side). -/
structure EnsureStopResult where
  currentStop : Option AsterOrder
  roundedTarget : ℚ
  cancelIssued : Option ℕ
  cancelErrorLogged : Bool
  placeCalled : Bool
  placeSide : Option Side
deriving DecidableEq, Repr

/-- Embeds `ensureStopLossOrder(position, lastPrice)`: maintenance of the protective
order.  `cancelResult` is the outcome of the awaited
`exchange.cancelOrder` call (only consulted when a cancel is issued). -/
def ensureStopLossOrder (lossLimit priceTickCfg : ℚ) (position : PositionSnapshot)
    (openOrders : List AsterOrder) (cancelResult : Except JsError Unit) : EnsureStopResult :=
  let absPosition := |position.positionAmt|
  if absPosition < EPS then ⟨none, 0, none, false, false, none⟩
  else
    let stopSide := stopSideOf position
    let currentStop := findCurrentStop openOrders stopSide
    let priceTick := clampTick priceTickCfg
    let roundedTarget := volumeStopTarget lossLimit priceTickCfg position
    let needReplace : Bool :=
      match currentStop with
      | some c =>
          match c.stopPrice.val with
          | some existing => decide (priceTick ≤ |existing - roundedTarget|)
          | none => false
      | none => false
    match currentStop with
    | none =>
        ⟨none, roundedTarget, none, false, true, some stopSide⟩
    | some c =>
        if needReplace then
          let errLogged : Bool :=
            match cancelResult with
            | .ok _ => false
            | .error e => !e.isUnknownOrder
          ⟨some c, roundedTarget, some c.orderId, errLogged, true, some stopSide⟩
        else ⟨some c, roundedTarget, none, false, false, none⟩

/-! ## ReconciliationLoop: `VolumeMakerEngine.tick` skeleton and the
defensive sweep (src/strategy/common/session-volume.ts) -/

/-- Embeds `RateLimitController.beforeCycle()` verdict (the controller itself lives
in `src/core/lib/rate-limit.ts`, outside the provided sources; only its
verdict reaches `tick`). -/
inductive RateDecision where
  | proceed
  | paused
  | skip
deriving DecidableEq, Repr

/-- A desired order of the volume maker.  `formatPriceToString`
(src/utils/math.ts, not in the provided sources) only renders the numeric
price; the model keeps the numeric value. -/
structure DesiredOrder where
  side : Side
  price : ℚ
  amount : ℚ
  reduceOnly : Bool
deriving DecidableEq, Repr

/-- The engine constants of lines 121–125. -/
def MIN_SPREAD_TICKS : ℕ := 1

/-- Embeds `MAX_ORDERS_PER_SIDE = 5`. -/
def MAX_ORDERS_PER_SIDE : ℕ := 5

/-- Embeds `ORDER_SIZE_MULTIPLIER = [1, 0.8, 0.6, 0.4, 0.2]`. -/
def ORDER_SIZE_MULTIPLIER : List ℚ := [1, 4/5, 3/5, 2/5, 1/5]

/-- The desired-order construction of `tick` (lines 417–469). -/
def desiredVolumeOrders (priceTick tradeAmount : ℚ) (position : PositionSnapshot)
    (topBid topAsk : ℚ) (canEnter : Bool) : List DesiredOrder :=
  let absPosition := |position.positionAmt|
  if absPosition < EPS then
    if canEnter then
      (List.range MAX_ORDERS_PER_SIDE).flatMap fun i =>
        let spreadTicks : ℚ := (MIN_SPREAD_TICKS + i : ℕ)
        let bidPrice := topBid - priceTick * spreadTicks
        let askPrice := topAsk + priceTick * spreadTicks
        let orderSize := tradeAmount * ((ORDER_SIZE_MULTIPLIER.get? i).getD 0)
        [⟨.buy, bidPrice, orderSize, false⟩, ⟨.sell, askPrice, orderSize, false⟩]
    else []
  else
    let hasEntryPrice := 1 / 100000000 < |position.entryPrice|
    let direction : Dir := if 0 < position.positionAmt then .long else .short
    let closeSide : Side := if direction = .long then .sell else .buy
    if hasEntryPrice then
      let minProfitTicks : ℚ := 2
      let closePrice :=
        if direction = .long then position.entryPrice + priceTick * minProfitTicks
        else position.entryPrice - priceTick * minProfitTicks
      let closeOrder : DesiredOrder := ⟨closeSide, closePrice, absPosition, true⟩
      if canEnter then
        let oppositePrice :=
          if direction = .long then topBid - priceTick else topAsk + priceTick
        let oppositeSide : Side := if direction = .long then .buy else .sell
        [closeOrder, ⟨oppositeSide, oppositePrice, tradeAmount, false⟩]
      else [closeOrder]
    else
      let closePrice := if closeSide = .sell then topBid else topAsk
      [⟨closeSide, closePrice, absPosition, true⟩]

/-- Inputs of one `tick` cycle (the engine state and collaborator verdicts it
reads). -/
structure TickInput where
  decision : RateDecision
  ready : Bool
  startupResetOk : Bool
  topBid : Option ℚ
  topAsk : Option ℚ
  position : PositionSnapshot
  blockEntries : Bool
  insufficientActive : Bool
deriving DecidableEq, Repr

/-- What one `tick` cycle did: the desired orders it derived, and whether it
reached `syncOrders` (the plan/cancel/place step) and `checkRisk` (stop-loss
maintenance). -/
structure TickResult where
  desired : List DesiredOrder
  syncCalled : Bool
  checkRiskCalled : Bool
deriving DecidableEq, Repr

/-- The control-flow skeleton of `VolumeMakerEngine.tick` (lines 384–493):
gates on the rate-limit verdict, feed readiness, the startup reset and a
usable top of book, then derives desired orders (entries only when
`canEnter`), syncs them and runs risk maintenance. -/
def tickSkeleton (priceTick tradeAmount : ℚ) (inp : TickInput) : TickResult :=
  match inp.decision with
  | .paused => ⟨[], false, false⟩
  | .skip => ⟨[], false, false⟩
  | .proceed =>
      if inp.ready = false then ⟨[], false, false⟩
      else if inp.startupResetOk = false then ⟨[], false, false⟩
      else
        match inp.topBid, inp.topAsk with
        | some bid, some ask =>
            let canEnter : Bool := !inp.blockEntries && !inp.insufficientActive
            let desired := desiredVolumeOrders priceTick tradeAmount inp.position bid ask canEnter
            ⟨desired, true, true⟩
        | _, _ => ⟨[], false, false⟩

/-- Embeds `String.prototype.includes`. -/
def strIncludes (s sub : String) : Bool :=
  decide (sub.data <:+: s.data)

/-- The protective-order test of `flushNonStopOrders` (lines 689–691): the
upper-cased type contains `"STOP"` or `"TAKE_PROFIT"`, or the order carries a
finite positive `stopPrice`. -/
def isTriggerLike (o : AsterOrder) : Bool :=
  let type := jsToUpper o.otype
  let hasStopPrice : Bool :=
    match o.stopPrice.val with
    | some v => decide (0 < v)
    | none => false
  strIncludes type "STOP" || strIncludes type "TAKE_PROFIT" || hasStopPrice

/-- Embeds `flushNonStopOrders` (lines 686–711): the defensive sweep.  Returns the
ids handed to `safeCancelOrder`; trigger-like orders and ids already pending
cancellation are skipped, and each issued cancel is recorded as pending. -/
def flushNonStopOrders : List AsterOrder → List ℕ → List ℕ
  | [], _ => []
  | o :: rest, pendingCancel =>
      if isTriggerLike o then flushNonStopOrders rest pendingCancel
      else if o.orderId ∈ pendingCancel then flushNonStopOrders rest pendingCancel
      else o.orderId :: flushNonStopOrders rest (o.orderId :: pendingCancel)

/-- The still-unmatched targets fetched from the index set
(`[...unmatched].map(idx => targets[idx])` minus the `undefined` entries). -/
def fetchedTargets (targets : List OrderTarget) (u : List ℕ) : List OrderTarget :=
  u.filterMap fun i => targets.get? i

/-! ## Shared concrete fixtures for witnesses and counterexamples -/

/-- A coordinator state with nothing locked, no timers, no pending ids. -/
def emptyCoord : CoordState :=
  ⟨fun _ => false, fun _ => none, fun _ => none⟩

/-- A helper to build a numeric price string. -/
def numStr (r : String) (v : ℚ) : PriceStr :=
  ⟨r, some v⟩

/-- A plain open LIMIT order fixture. -/
def limitOrder (id : ℕ) (s : Side) (p : PriceStr) (upd : ℕ) : AsterOrder :=
  ⟨id, s, "LIMIT", p, ⟨"0", some 0⟩, false, upd, upd, "NEW"⟩

/-- A resting STOP_MARKET protective order fixture. -/
def stopOrder (id : ℕ) (s : Side) (trigger : ℚ) (upd : ℕ) : AsterOrder :=
  ⟨id, s, "STOP_MARKET", ⟨"0", some 0⟩, ⟨"t", some trigger⟩, true, upd, upd, "NEW"⟩

/-- A non-reduce-only open target fixture. -/
def openTarget (s : Side) (p : PriceStr) : OrderTarget :=
  ⟨s, p, 1, false⟩

/-- An order acknowledgment fixture returned by `createOrder`. -/
def ackOrder : AsterOrder :=
  limitOrder 77 .buy (numStr "100" 100) 1

/-- A venue error that `isUnknownOrderError` classifies as benign. -/
def unknownOrderErr : JsError :=
  ⟨true, "Unknown order sent"⟩

/-- A generic venue error. -/
def genericErr : JsError :=
  ⟨false, "boom"⟩

/-! ## Basic facts about the state model -/

@[simp] theorem updateKey_same {α : Type} (f : String → α) (k : String) (v : α) :
    updateKey f k v k = v := by
  simp [updateKey]

@[simp] theorem updateKey_other {α : Type} (f : String → α) (k k' : String) (v : α)
    (h : k' ≠ k) : updateKey f k v k' = f k' := by
  simp [updateKey, h]

/-! ## C5 — lock liveness -/

/-- C5: after `lockOperating(locks, timers, pendings, key, log, timeoutMs)`
with no matching `unlockOperating`, once `timeoutMs` has elapsed the expiry
callback has set `locks[key]` to `false` and cleared `pendings[key]` to
`null` — no lock persists beyond its timeout. -/
theorem lock_timeout_liveness (st : CoordState) (key : String) (now timeout t : ℕ)
    (h : now + timeout ≤ t) :
    (advanceTimers (lockOperating st key now timeout) t).locks key = false ∧
    (advanceTimers (lockOperating st key now timeout) t).pendings key = none := by
  constructor <;> simp [advanceTimers, lockOperating, updateKey, h]

/-- Witness for C5 at key `"LIMIT"`, the source's default 3000 ms timeout,
and the first instant at which it has elapsed. -/
theorem lock_timeout_liveness_witness :
    (advanceTimers (lockOperating emptyCoord "LIMIT" 0 3000) 3000).locks "LIMIT" = false ∧
    (advanceTimers (lockOperating emptyCoord "LIMIT" 0 3000) 3000).pendings "LIMIT" = none :=
  lock_timeout_liveness emptyCoord "LIMIT" 0 3000 3000 (by decide)

/-! ## C9 — top-of-book sanitation -/

theorem sanitizePrice_eq_none_iff (x : Option ℚ) :
    sanitizePrice x = none ↔ x = none ∨ ∃ v, x = some v ∧ v ≤ 0 := by
  cases x with
  | none => simp [sanitizePrice]
  | some q =>
      by_cases hq : 0 < q
      · have hq' := not_le.mpr hq
        simp [sanitizePrice, hq, hq']
      · have h0 : q ≤ 0 := not_lt.mp hq
        simp [sanitizePrice, hq, h0]

theorem sanitizePrice_eq_some_iff (x : Option ℚ) (v : ℚ) :
    sanitizePrice x = some v ↔ x = some v ∧ 0 < v := by
  cases x with
  | none => simp [sanitizePrice]
  | some q =>
      by_cases hq : 0 < q
      · simp only [sanitizePrice, if_pos hq, Option.some_inj]
        constructor
        · rintro rfl; exact ⟨rfl, hq⟩
        · rintro ⟨h, _⟩; exact h
      · simp only [sanitizePrice, if_neg hq]
        constructor
        · intro h; exact absurd h (by simp)
        · rintro ⟨h, hv⟩; exact absurd ((Option.some_inj.mp h) ▸ hq) (not_not_intro hv)

/-- C9: `getTopPrices` returns `null` for `topBid` (resp. `topAsk`) exactly
when the best bid (ask) entry is missing, non-numeric, non-finite
(`rawTopBid depth = none`), or not strictly positive; and it surfaces the
parsed numeric price exactly when that price is strictly positive. -/
theorem getTopPrices_sanitization (depth : Option AsterDepth) :
    ((getTopPrices depth).1 = none ↔
        rawTopBid depth = none ∨ ∃ v, rawTopBid depth = some v ∧ v ≤ 0) ∧
    (∀ v, (getTopPrices depth).1 = some v ↔ rawTopBid depth = some v ∧ 0 < v) ∧
    ((getTopPrices depth).2 = none ↔
        rawTopAsk depth = none ∨ ∃ v, rawTopAsk depth = some v ∧ v ≤ 0) ∧
    (∀ v, (getTopPrices depth).2 = some v ↔ rawTopAsk depth = some v ∧ 0 < v) :=
  ⟨sanitizePrice_eq_none_iff (rawTopBid depth),
   fun v => sanitizePrice_eq_some_iff (rawTopBid depth) v,
   sanitizePrice_eq_none_iff (rawTopAsk depth),
   fun v => sanitizePrice_eq_some_iff (rawTopAsk depth) v⟩

/-! ## C10 — PnL reference-price guard -/

/-- C10: `computePositionPnl` values a long position (`positionAmt > 0`)
against `bestBid` and any other position against `bestAsk`; it returns
exactly `0` whenever that reference price is missing/non-finite (`none`) or
not strictly positive, regardless of position size or entry price, and
otherwise the signed PnL against the reference. -/
theorem computePositionPnl_reference_guard (position : PositionSnapshot)
    (bestBid bestAsk : Option ℚ) :
    ((if 0 < position.positionAmt then bestBid else bestAsk) = none →
        computePositionPnl position bestBid bestAsk = 0) ∧
    (∀ v, (if 0 < position.positionAmt then bestBid else bestAsk) = some v → v ≤ 0 →
        computePositionPnl position bestBid bestAsk = 0) ∧
    (∀ v, (if 0 < position.positionAmt then bestBid else bestAsk) = some v → 0 < v →
        computePositionPnl position bestBid bestAsk =
          if 0 < position.positionAmt then (v - position.entryPrice) * |position.positionAmt|
          else (position.entryPrice - v) * |position.positionAmt|) := by
  refine ⟨?_, ?_, ?_⟩
  · intro h
    simp [computePositionPnl, h]
  · intro v h hv
    simp [computePositionPnl, h, hv]
  · intro v h hv
    simp [computePositionPnl, h, not_le.mpr hv]

/-- Witness for C10: a long position of size 2 at entry 50 with a `null`
bid reference (`Number(null) = 0` fails the guard) yields PnL exactly 0. -/
theorem computePositionPnl_reference_guard_witness :
    computePositionPnl ⟨2, 50, 50⟩ (some 0) (some 100) = 0 :=
  (computePositionPnl_reference_guard ⟨2, 50, 50⟩ (some 0) (some 100)).2.1 0
    (by decide) (by decide)

/-! ## C2 — atomic-dual fallback equivalence -/

/-- The guard used by the concrete atomic-dual evaluations: lossLimitUsd 1,
priceTick 0.1, qtyStep 0.001, attachStops enabled (the values of the
repository's own test). -/
def sampleAtomicGuard : AtomicGuard :=
  ⟨1, 1 / 10, 1 / 1000, true⟩

/-- C2 (divergence): at a concrete `placeAtomicDualWithStops` input with
`attachStops` enabled, the sequential fallback does **not** submit the same
four orders as the bulk path: the first three parameter sets agree, but the
fourth — the BUY-side protective stop — carries `triggerType "STOP_LOSS"`
sequentially where the bulk `paramsList` carries `"TAKE_PROFIT"`, so the two
paths' order sets differ. -/
theorem atomicDual_fallback_trigger_divergence :
    ((atomicDualSeqParams "BTCUSDT" 100 1 101 1 sampleAtomicGuard).take 3 =
        (atomicDualBulkParams "BTCUSDT" 100 1 101 1 sampleAtomicGuard).take 3) ∧
    ((atomicDualSeqParams "BTCUSDT" 100 1 101 1 sampleAtomicGuard).map
        CreateOrderParams.triggerType = [none, none, some "STOP_LOSS", some "STOP_LOSS"]) ∧
    ((atomicDualBulkParams "BTCUSDT" 100 1 101 1 sampleAtomicGuard).map
        CreateOrderParams.triggerType = [none, none, some "STOP_LOSS", some "TAKE_PROFIT"]) ∧
    atomicDualSeqParams "BTCUSDT" 100 1 101 1 sampleAtomicGuard ≠
      atomicDualBulkParams "BTCUSDT" 100 1 101 1 sampleAtomicGuard := by
  refine ⟨rfl, rfl, rfl, fun h => ?_⟩
  have h' := congrArg (List.map CreateOrderParams.triggerType) h
  rw [show (atomicDualSeqParams "BTCUSDT" 100 1 101 1 sampleAtomicGuard).map
        CreateOrderParams.triggerType = [none, none, some "STOP_LOSS", some "STOP_LOSS"] from rfl,
      show (atomicDualBulkParams "BTCUSDT" 100 1 101 1 sampleAtomicGuard).map
        CreateOrderParams.triggerType = [none, none, some "STOP_LOSS", some "TAKE_PROFIT"] from rfl] at h'
  exact absurd h' (by decide)

/-! ## C3 — side-determined trigger type -/

/-- C3 (divergence): `placeStopLossOrder` and the bulk path do tag the
trigger type purely by side (BUY → `TAKE_PROFIT`, SELL → `STOP_LOSS`), but
the sequential fallback of `placeAtomicDualWithStops` submits a BUY-side
`STOP_MARKET` tagged `STOP_LOSS` (order-coordinator.ts line 508), violating
the side-determined mapping on that submission path. -/
theorem stop_triggerType_side_divergence :
    ((placeStopLossOrder emptyCoord [] "BTCUSDT" .buy 102 1 (some 100) true (.ok ())
        (.ok ackOrder) (1 / 10) (1 / 1000) 0).submitted.map
          CreateOrderParams.triggerType = some (some "TAKE_PROFIT")) ∧
    ((placeStopLossOrder emptyCoord [] "BTCUSDT" .sell 99 1 (some 100) true (.ok ())
        (.ok ackOrder) (1 / 10) (1 / 1000) 0).submitted.map
          CreateOrderParams.triggerType = some (some "STOP_LOSS")) ∧
    (((atomicDualBulkParams "BTCUSDT" 100 1 101 1 sampleAtomicGuard).getLast?).map
        (fun p => (p.side, p.otype, p.triggerType)) =
          some (.buy, "STOP_MARKET", some "TAKE_PROFIT")) ∧
    (((atomicDualSeqParams "BTCUSDT" 100 1 101 1 sampleAtomicGuard).getLast?).map
        (fun p => (p.side, p.otype, p.triggerType)) =
          some (.buy, "STOP_MARKET", some "STOP_LOSS")) :=
  ⟨rfl, rfl, rfl, rfl⟩

/-! ## C4 — placeOrder lock discipline -/

/-- C4 (counterexample): a `placeOrder` call that reaches submission and
succeeds terminally does **not** release the per-class lock: after a
successful `createOrder` the `LIMIT` lock is still held (it is released later
by the expiry timer or by the order feed), refuting the claim's
"released on terminal success" conjunct. -/
theorem placeOrder_success_keeps_lock_counterexample :
    (placeOrder emptyCoord [] "BTCUSDT" .buy (numStr "100" 100) 1 false true true (.ok ())
        (.ok ackOrder) (1 / 10) (1 / 1000) 0).outcome = .ok (some ackOrder) ∧
    (placeOrder emptyCoord [] "BTCUSDT" .buy (numStr "100" 100) 1 false true true (.ok ())
        (.ok ackOrder) (1 / 10) (1 / 1000) 0).state.locks "LIMIT" = true :=
  ⟨rfl, rfl⟩

/-- C4 (amended): for every `placeOrder` invocation that reaches submission
(class not locked, guard passing): on terminal success the order is returned,
the returned id is recorded as pending and the lock **remains held** with its
expiry timer armed; on an unknown-order failure the error is swallowed
(`undefined` is returned) with the lock released; on any other failure the
lock is released and the error propagates to the caller. -/
theorem placeOrder_lock_discipline (st : CoordState) (openOrders : List AsterOrder)
    (symbol : String) (side : Side) (price : PriceStr) (amount : ℚ) (reduceOnly : Bool)
    (skipDedupe : Bool) (dedupRes : Except JsError Unit) (createRes : Except JsError AsterOrder)
    (priceTick qtyStep : ℚ) (now : ℕ)
    (hfree : st.locks "LIMIT" = false) :
    (∀ o, createRes = .ok o →
        (placeOrder st openOrders symbol side price amount reduceOnly true skipDedupe dedupRes
            createRes priceTick qtyStep now).outcome = .ok (some o) ∧
        (placeOrder st openOrders symbol side price amount reduceOnly true skipDedupe dedupRes
            createRes priceTick qtyStep now).state.locks "LIMIT" = true ∧
        (placeOrder st openOrders symbol side price amount reduceOnly true skipDedupe dedupRes
            createRes priceTick qtyStep now).state.pendings "LIMIT" = some (toString o.orderId) ∧
        (placeOrder st openOrders symbol side price amount reduceOnly true skipDedupe dedupRes
            createRes priceTick qtyStep now).state.timers "LIMIT" = some (now + 3000)) ∧
    (∀ e, createRes = .error e → e.isUnknownOrder = true →
        (placeOrder st openOrders symbol side price amount reduceOnly true skipDedupe dedupRes
            createRes priceTick qtyStep now).outcome = .ok none ∧
        (placeOrder st openOrders symbol side price amount reduceOnly true skipDedupe dedupRes
            createRes priceTick qtyStep now).state.locks "LIMIT" = false ∧
        (placeOrder st openOrders symbol side price amount reduceOnly true skipDedupe dedupRes
            createRes priceTick qtyStep now).state.pendings "LIMIT" = none) ∧
    (∀ e, createRes = .error e → e.isUnknownOrder = false →
        (placeOrder st openOrders symbol side price amount reduceOnly true skipDedupe dedupRes
            createRes priceTick qtyStep now).outcome = .error e ∧
        (placeOrder st openOrders symbol side price amount reduceOnly true skipDedupe dedupRes
            createRes priceTick qtyStep now).state.locks "LIMIT" = false ∧
        (placeOrder st openOrders symbol side price amount reduceOnly true skipDedupe dedupRes
            createRes priceTick qtyStep now).state.pendings "LIMIT" = none) := by
  refine ⟨?_, ?_, ?_⟩
  · rintro o rfl
    simp [placeOrder, isOperating, hfree, lockOperating, unlockOperating, updateKey]
  · rintro e rfl he
    simp [placeOrder, isOperating, hfree, he, lockOperating, unlockOperating, updateKey]
  · rintro e rfl he
    simp [placeOrder, isOperating, hfree, he, lockOperating, unlockOperating, updateKey]

/-- Witness for C4 at a concrete propagated failure: the generic error comes
back to the caller and the LIMIT lock is already released. -/
theorem placeOrder_lock_discipline_witness :
    (placeOrder emptyCoord [] "BTCUSDT" .buy (numStr "100" 100) 1 false true false (.ok ())
        (.error genericErr) (1 / 10) (1 / 1000) 0).outcome = .error genericErr ∧
    (placeOrder emptyCoord [] "BTCUSDT" .buy (numStr "100" 100) 1 false true false (.ok ())
        (.error genericErr) (1 / 10) (1 / 1000) 0).state.locks "LIMIT" = false := by
  have h := placeOrder_lock_discipline emptyCoord [] "BTCUSDT" .buy (numStr "100" 100) 1 false
    false (.ok ()) (.error genericErr) (1 / 10) (1 / 1000) 0 rfl
  exact ⟨(h.2.2 genericErr rfl rfl).1, (h.2.2 genericErr rfl rfl).2.1⟩

/-! ## C6 — dedupe keeps the newest duplicate -/

theorem insertionSort_head_of_unique_max (S : List AsterOrder) (m : AsterOrder)
    (hmem : m ∈ S) (hmax : ∀ o ∈ S, o ≠ m → jsTs o < jsTs m) :
    ∃ tl, S.insertionSort dedupRel = m :: tl := by
  have hperm := List.perm_insertionSort dedupRel S
  have hsorted := List.sorted_insertionSort dedupRel S
  cases hs : S.insertionSort dedupRel with
  | nil =>
      rw [hs] at hperm
      exact absurd (hperm.symm.mem_iff.mp hmem) (List.not_mem_nil m)
  | cons hd tl =>
      refine ⟨tl, ?_⟩
      rw [hs] at hperm hsorted
      by_cases hhd : hd = m
      · rw [hhd]
      · exfalso
        have hmtl : m ∈ tl := by
          have := hperm.symm.mem_iff.mp hmem
          rcases List.mem_cons.mp this with h | h
          · exact absurd h.symm hhd
          · exact h
        have hle : jsTs m ≤ jsTs hd :=
          (List.pairwise_cons.mp hsorted).1 m hmtl
        have hlt : jsTs hd < jsTs m :=
          hmax hd (hperm.mem_iff.mp (List.mem_cons_self hd tl)) hhd
        exact absurd hle (not_le.mpr hlt)

/-- C6: whenever more than one open order matches the `(type, side)`
duplicate filter, `deduplicateOrders` issues one bulk cancel for exactly the
matching orders other than the one with the greatest
`updateTime || time || 0`; an unknown-order failure of the cancel is logged
as benign (an `"order"`-category log, treated as success), any other failure
is reported with an `"error"`-category log, and the class lock ends released
in every outcome. -/
theorem deduplicateOrders_keeps_newest (openOrders : List AsterOrder) (type : String)
    (side : Side) (cancelResult : Except JsError Unit) (st : CoordState) (now : ℕ)
    (m : AsterOrder)
    (h2 : 2 ≤ (openOrders.filter (sameTypeOrder type side)).length)
    (hmem : m ∈ openOrders.filter (sameTypeOrder type side))
    (hmax : ∀ o ∈ openOrders.filter (sameTypeOrder type side), o ≠ m → jsTs o < jsTs m) :
    ((deduplicateOrders openOrders type side cancelResult st now).toCancel : Multiset AsterOrder) =
        (↑(openOrders.filter (sameTypeOrder type side)) : Multiset AsterOrder).erase m ∧
    (deduplicateOrders openOrders type side cancelResult st now).cancelledIds =
        (deduplicateOrders openOrders type side cancelResult st now).toCancel.map AsterOrder.orderId ∧
    (deduplicateOrders openOrders type side cancelResult st now).state.locks type = false ∧
    (cancelResult = .ok () →
        (deduplicateOrders openOrders type side cancelResult st now).logs =
          [("order", "去重撤销重复单")]) ∧
    (∀ e, cancelResult = .error e → e.isUnknownOrder = true →
        (deduplicateOrders openOrders type side cancelResult st now).logs =
          [("order", "去重时发现订单已不存在，跳过删除")]) ∧
    (∀ e, cancelResult = .error e → e.isUnknownOrder = false →
        (deduplicateOrders openOrders type side cancelResult st now).logs =
          [("error", "去重撤单失败")]) := by
  obtain ⟨tl, hs⟩ := insertionSort_head_of_unique_max
    (openOrders.filter (sameTypeOrder type side)) m hmem hmax
  have hperm := List.perm_insertionSort dedupRel (openOrders.filter (sameTypeOrder type side))
  rw [hs] at hperm
  have hlen : ¬ (openOrders.filter (sameTypeOrder type side)).length ≤ 1 := by
    omega
  have htl : tl ≠ [] := by
    intro h
    rw [h] at hperm
    have := hperm.length_eq
    simp at this
    omega
  have hids : tl.map AsterOrder.orderId ≠ [] := by
    simpa using htl
  have htc : (Multiset.ofList tl) =
      (↑(openOrders.filter (sameTypeOrder type side)) : Multiset AsterOrder).erase m := by
    have hcoe : (↑(m :: tl) : Multiset AsterOrder) =
        ↑(openOrders.filter (sameTypeOrder type side)) := Multiset.coe_eq_coe.mpr hperm
    calc (↑tl : Multiset AsterOrder)
        = (m ::ₘ (↑tl : Multiset AsterOrder)).erase m := (Multiset.erase_cons_head m ↑tl).symm
      _ = ((↑(m :: tl) : Multiset AsterOrder)).erase m := by rw [Multiset.cons_coe]
      _ = (↑(openOrders.filter (sameTypeOrder type side)) : Multiset AsterOrder).erase m := by
            rw [hcoe]
  have hred : deduplicateOrders openOrders type side cancelResult st now =
      ⟨unlockOperating (lockOperating st type now 3000) type, tl, tl.map AsterOrder.orderId,
        match cancelResult with
        | .ok _ => [("order", "去重撤销重复单")]
        | .error e =>
            if e.isUnknownOrder then [("order", "去重时发现订单已不存在，跳过删除")]
            else [("error", "去重撤单失败")]⟩ := by
    simp only [deduplicateOrders, if_neg hlen, hs, List.drop_one, List.tail_cons, if_neg hids]
  refine ⟨?_, ?_, ?_, ?_, ?_, ?_⟩
  · rw [hred]; exact htc
  · rw [hred]
  · rw [hred]; simp [unlockOperating, updateKey]
  · rintro rfl; rw [hred]
  · rintro e rfl he; rw [hred]; simp [he]
  · rintro e rfl he; rw [hred]; simp [he]

/-- Witness for C6: two open BUY LIMIT orders with `updateTime` 5 and 9; the
bulk cancel targets exactly the older one and the lock ends released. -/
theorem deduplicateOrders_keeps_newest_witness :
    ((deduplicateOrders
        [limitOrder 1 .buy (numStr "100" 100) 5, limitOrder 2 .buy (numStr "100" 100) 9]
        "LIMIT" .buy (.ok ()) emptyCoord 0).toCancel : Multiset AsterOrder) =
      {limitOrder 1 .buy (numStr "100" 100) 5} ∧
    (deduplicateOrders
        [limitOrder 1 .buy (numStr "100" 100) 5, limitOrder 2 .buy (numStr "100" 100) 9]
        "LIMIT" .buy (.ok ()) emptyCoord 0).state.locks "LIMIT" = false := by
  have h := deduplicateOrders_keeps_newest
    [limitOrder 1 .buy (numStr "100" 100) 5, limitOrder 2 .buy (numStr "100" 100) 9]
    "LIMIT" .buy (.ok ()) emptyCoord 0 (limitOrder 2 .buy (numStr "100" 100) 9)
    (by decide) (by decide) (by decide)
  refine ⟨?_, h.2.2.1⟩
  rw [h.1, Multiset.coe_erase]
  decide

/-! ## C7 — stop-loss replace threshold -/

/-- C7: with an open position (`|positionAmt| ≥ EPS`), stop-loss maintenance
places a protective order when none matches; with an existing protective
order at finite trigger `T` and recomputed tick-rounded target `T'`, it
issues cancel-then-replace iff `|T - T'| ≥ priceTick` and is a no-op
otherwise; and an unknown-order failure of the cancel is tolerated (no error
reported). -/
theorem ensureStopLoss_replace_threshold (lossLimit priceTickCfg : ℚ)
    (position : PositionSnapshot) (openOrders : List AsterOrder)
    (cancelResult : Except JsError Unit)
    (hpos : ¬ |position.positionAmt| < EPS) :
    (findCurrentStop openOrders (stopSideOf position) = none →
        (ensureStopLossOrder lossLimit priceTickCfg position openOrders cancelResult).placeCalled
            = true ∧
        (ensureStopLossOrder lossLimit priceTickCfg position openOrders cancelResult).cancelIssued
            = none) ∧
    (∀ c T, findCurrentStop openOrders (stopSideOf position) = some c →
        c.stopPrice.val = some T →
        ((clampTick priceTickCfg ≤ |T - volumeStopTarget lossLimit priceTickCfg position| →
            (ensureStopLossOrder lossLimit priceTickCfg position openOrders
                cancelResult).cancelIssued = some c.orderId ∧
            (ensureStopLossOrder lossLimit priceTickCfg position openOrders
                cancelResult).placeCalled = true) ∧
         (|T - volumeStopTarget lossLimit priceTickCfg position| < clampTick priceTickCfg →
            (ensureStopLossOrder lossLimit priceTickCfg position openOrders
                cancelResult).cancelIssued = none ∧
            (ensureStopLossOrder lossLimit priceTickCfg position openOrders
                cancelResult).placeCalled = false))) ∧
    (∀ e, cancelResult = .error e → e.isUnknownOrder = true →
        (ensureStopLossOrder lossLimit priceTickCfg position openOrders
            cancelResult).cancelErrorLogged = false) := by
  refine ⟨?_, ?_, ?_⟩
  · intro hfind
    simp [ensureStopLossOrder, if_neg hpos, hfind]
  · intro c T hfind hT
    constructor
    · intro hge
      have : (decide (clampTick priceTickCfg ≤
          |T - volumeStopTarget lossLimit priceTickCfg position|)) = true := by
        exact decide_eq_true hge
      simp [ensureStopLossOrder, if_neg hpos, hfind, hT, this]
    · intro hlt
      have : (decide (clampTick priceTickCfg ≤
          |T - volumeStopTarget lossLimit priceTickCfg position|)) = false := by
        exact decide_eq_false (not_le.mpr hlt)
      simp [ensureStopLossOrder, if_neg hpos, hfind, hT, this]
  · intro e hc he
    by_cases hfind : ∃ c, findCurrentStop openOrders (stopSideOf position) = some c
    · obtain ⟨c, hc'⟩ := hfind
      cases hT : c.stopPrice.val with
      | none => simp [ensureStopLossOrder, if_neg hpos, hc', hT]
      | some T =>
          by_cases hge : clampTick priceTickCfg ≤
              |T - volumeStopTarget lossLimit priceTickCfg position|
          · simp [ensureStopLossOrder, if_neg hpos, hc', hT, decide_eq_true hge, hc, he]
          · simp [ensureStopLossOrder, if_neg hpos, hc', hT,
              decide_eq_false (not_le.mpr (not_le.mp hge)), hc, he]
    · have hnone : findCurrentStop openOrders (stopSideOf position) = none := by
        cases h : findCurrentStop openOrders (stopSideOf position) with
        | none => rfl
        | some c => exact absurd ⟨c, h⟩ hfind
      simp [ensureStopLossOrder, if_neg hpos, hnone]

/-- Witness for C7: long 1 @ entry 100, lossLimit 5 (doubled to 10 by the
volume strategy), tick 0.1: target 90; the resting SELL stop at 80 is stale
by 10 ≥ 0.1, so it is cancelled and replaced, and the unknown-order cancel
failure is tolerated. -/
theorem ensureStopLoss_replace_threshold_witness :
    (ensureStopLossOrder 5 (1/10) ⟨1, 100, 100⟩ [stopOrder 9 .sell 80 1]
        (.error unknownOrderErr)).cancelIssued = some 9 ∧
    (ensureStopLossOrder 5 (1/10) ⟨1, 100, 100⟩ [stopOrder 9 .sell 80 1]
        (.error unknownOrderErr)).placeCalled = true ∧
    (ensureStopLossOrder 5 (1/10) ⟨1, 100, 100⟩ [stopOrder 9 .sell 80 1]
        (.error unknownOrderErr)).cancelErrorLogged = false := by
  have hpos : ¬ |(1:ℚ)| < EPS := by norm_num [EPS]
  have h := ensureStopLoss_replace_threshold 5 (1/10) ⟨1, 100, 100⟩ [stopOrder 9 .sell 80 1]
    (.error unknownOrderErr) hpos
  have htgt : volumeStopTarget 5 (1/10) ⟨1, 100, 100⟩ = 90 := by
    norm_num [volumeStopTarget, calcStopLossPrice, clampTick, jsRound]
  have hge : clampTick (1/10) ≤ |(80:ℚ) - volumeStopTarget 5 (1/10) ⟨1, 100, 100⟩| := by
    rw [htgt]; norm_num [clampTick]
  have h2 := h.2.1 (stopOrder 9 .sell 80 1) 80 (by rfl) (by rfl)
  exact ⟨(h2.1 hge).1, (h2.1 hge).2, h.2.2 unknownOrderErr rfl rfl⟩

/-! ## C8 — rate-limit gating preserves protection -/

theorem flushNonStopOrders_only_nonprotective (openOrders : List AsterOrder)
    (pendingCancel : List ℕ) :
    ∀ id ∈ flushNonStopOrders openOrders pendingCancel,
      ∃ o ∈ openOrders, o.orderId = id ∧ isTriggerLike o = false := by
  induction openOrders generalizing pendingCancel with
  | nil => intro id hid; simp [flushNonStopOrders] at hid
  | cons o rest ih =>
      intro id hid
      by_cases htrig : isTriggerLike o = true
      · rw [flushNonStopOrders, if_pos htrig] at hid
        obtain ⟨o', ho', hids, hnt⟩ := ih pendingCancel id hid
        exact ⟨o', List.mem_cons_of_mem o ho', hids, hnt⟩
      · rw [flushNonStopOrders, if_neg htrig] at hid
        by_cases hpc : o.orderId ∈ pendingCancel
        · rw [if_pos hpc] at hid
          obtain ⟨o', ho', hids, hnt⟩ := ih pendingCancel id hid
          exact ⟨o', List.mem_cons_of_mem o ho', hids, hnt⟩
        · rw [if_neg hpc] at hid
          rcases List.mem_cons.mp hid with h | h
          · exact ⟨o, List.mem_cons_self o rest, h.symm, Bool.not_eq_true _ ▸ eq_false_of_ne_true htrig⟩
          · obtain ⟨o', ho', hids, hnt⟩ := ih (o.orderId :: pendingCancel) id h
            exact ⟨o', List.mem_cons_of_mem o ho', hids, hnt⟩

theorem flushNonStopOrders_sweeps_nonprotective (openOrders : List AsterOrder)
    (pendingCancel : List ℕ) :
    ∀ o ∈ openOrders, isTriggerLike o = false → o.orderId ∉ pendingCancel →
      o.orderId ∈ flushNonStopOrders openOrders pendingCancel := by
  induction openOrders generalizing pendingCancel with
  | nil => intro o ho; simp at ho
  | cons hd rest ih =>
      intro o ho hnt hpc
      by_cases htrig : isTriggerLike hd = true
      · rw [flushNonStopOrders, if_pos htrig]
        rcases List.mem_cons.mp ho with rfl | h
        · rw [hnt] at htrig; cases htrig
        · exact ih pendingCancel o h hnt hpc
      · rw [flushNonStopOrders, if_neg htrig]
        by_cases hhd : hd.orderId ∈ pendingCancel
        · rw [if_pos hhd]
          rcases List.mem_cons.mp ho with rfl | h
          · exact absurd hhd hpc
          · exact ih pendingCancel o h hnt hpc
        · rw [if_neg hhd]
          rcases List.mem_cons.mp ho with rfl | h
          · exact List.mem_cons_self _ _
          · by_cases hsame : o.orderId = hd.orderId
            · rw [hsame]; exact List.mem_cons_self _ _
            · refine List.mem_cons_of_mem _ ?_
              exact ih (hd.orderId :: pendingCancel) o h hnt
                (fun hmem => (List.mem_cons.mp hmem).elim hsame hpc)

/-- C8: in a cycle where entry placement is blocked
(`shouldBlockEntries() = true`, as after a RateLimited error) but the cycle
proceeds with ready feeds and a usable book, `tick` still reaches both the
order-sync step (so non-matching orders are still cancelled) and the
stop-loss maintenance step; and the defensive sweep `flushNonStopOrders`
issues cancels exactly for non-protective orders — every cancelled id belongs
to a non-trigger-like order, every non-trigger-like order not already pending
is cancelled, and no trigger-like order's cancel can originate from it. -/
theorem rateLimit_gating_preserves_protection (priceTick tradeAmount : ℚ)
    (inp : TickInput) (openOrders : List AsterOrder) (pendingCancel : List ℕ)
    (hdec : inp.decision = .proceed) (hready : inp.ready = true)
    (hreset : inp.startupResetOk = true)
    (b a : ℚ) (hbid : inp.topBid = some b) (hask : inp.topAsk = some a)
    (_hblock : inp.blockEntries = true) :
    (tickSkeleton priceTick tradeAmount inp).checkRiskCalled = true ∧
    (tickSkeleton priceTick tradeAmount inp).syncCalled = true ∧
    (∀ id ∈ flushNonStopOrders openOrders pendingCancel,
        ∃ o ∈ openOrders, o.orderId = id ∧ isTriggerLike o = false) ∧
    (∀ o ∈ openOrders, isTriggerLike o = false → o.orderId ∉ pendingCancel →
        o.orderId ∈ flushNonStopOrders openOrders pendingCancel) := by
  refine ⟨?_, ?_, flushNonStopOrders_only_nonprotective openOrders pendingCancel,
    flushNonStopOrders_sweeps_nonprotective openOrders pendingCancel⟩ <;>
    simp [tickSkeleton, hdec, hready, hreset, hbid, hask]

/-- Witness for C8: a blocked-entries cycle over an open book still syncs and
runs stop-loss maintenance, and the sweep of one stop plus one limit order
cancels only the limit order. -/
theorem rateLimit_gating_preserves_protection_witness :
    (tickSkeleton (1/10) 1 ⟨.proceed, true, true, some 100, some 101, ⟨0, 0, 0⟩, true, false⟩).checkRiskCalled = true ∧
    (tickSkeleton (1/10) 1 ⟨.proceed, true, true, some 100, some 101, ⟨0, 0, 0⟩, true, false⟩).syncCalled = true ∧
    (limitOrder 4 .buy (numStr "100" 100) 1).orderId ∈
      flushNonStopOrders [stopOrder 9 .sell 80 1, limitOrder 4 .buy (numStr "100" 100) 1] [] ∧
    ¬ ∃ o ∈ [stopOrder 9 .sell 80 1, limitOrder 4 .buy (numStr "100" 100) 1],
        o.orderId = (stopOrder 9 .sell 80 1).orderId ∧ isTriggerLike o = false := by
  have h := rateLimit_gating_preserves_protection (1/10) 1
    ⟨.proceed, true, true, some 100, some 101, ⟨0, 0, 0⟩, true, false⟩
    [stopOrder 9 .sell 80 1, limitOrder 4 .buy (numStr "100" 100) 1] []
    rfl rfl rfl 100 101 rfl rfl rfl
  refine ⟨h.1, h.2.1, ?_, ?_⟩
  · exact h.2.2.2 (limitOrder 4 .buy (numStr "100" 100) 1) (by decide) (by decide) (by decide)
  · decide

/-! ## C1 — plan idempotence on an exactly matched book -/

theorem targetMatches_zero_iff (o : AsterOrder) (t : OrderTarget) :
    targetMatches 0 o t = true ↔ orderKey o = targetKey t := by
  have h0 : ¬ (0:ℚ) < 0 := lt_irrefl 0
  have hpe : (match o.price.val, t.price.val with
      | some op, some tp =>
          if (0:ℚ) < 0 then decide (|op - tp| ≤ 0)
          else decide (o.price.repr = t.price.repr)
      | _, _ => decide (o.price.repr = t.price.repr)) =
        decide (o.price.repr = t.price.repr) := by
    cases o.price.val <;> cases t.price.val <;> simp [h0]
  simp only [targetMatches, hpe, Bool.and_eq_true, decide_eq_true_eq, orderKey, targetKey,
    Prod.mk.injEq]
  constructor
  · rintro ⟨⟨h1, h2⟩, h3⟩
    exact ⟨h1.symm, h2.symm, h3⟩
  · rintro ⟨h1, h2, h3⟩
    exact ⟨⟨h1.symm, h2.symm⟩, h3⟩

theorem findMatchIdx_some_spec (tol : ℚ) (unmatched : List ℕ) (o : AsterOrder)
    (pairs : List (ℕ × OrderTarget)) (i : ℕ)
    (h : findMatchIdx tol unmatched o pairs = some i) :
    i ∈ unmatched ∧ ∃ t, (i, t) ∈ pairs ∧ targetMatches tol o t = true := by
  induction pairs with
  | nil => simp [findMatchIdx] at h
  | cons p rest ih =>
      obtain ⟨j, t⟩ := p
      rw [findMatchIdx] at h
      by_cases hc : j ∈ unmatched ∧ targetMatches tol o t = true
      · rw [if_pos hc] at h
        obtain rfl := Option.some_inj.mp h
        exact ⟨hc.1, t, List.mem_cons_self _ _, hc.2⟩
      · rw [if_neg hc] at h
        obtain ⟨hu, t', ht', hm⟩ := ih h
        exact ⟨hu, t', List.mem_cons_of_mem _ ht', hm⟩

theorem findMatchIdx_isSome (tol : ℚ) (unmatched : List ℕ) (o : AsterOrder)
    (pairs : List (ℕ × OrderTarget))
    (h : ∃ p ∈ pairs, p.1 ∈ unmatched ∧ targetMatches tol o p.2 = true) :
    ∃ i, findMatchIdx tol unmatched o pairs = some i := by
  induction pairs with
  | nil => simp at h
  | cons p rest ih =>
      obtain ⟨j, t⟩ := p
      rw [findMatchIdx]
      by_cases hc : j ∈ unmatched ∧ targetMatches tol o t = true
      · exact ⟨j, if_pos hc⟩
      · rw [if_neg hc]
        apply ih
        obtain ⟨q, hq, hq1, hq2⟩ := h
        rcases List.mem_cons.mp hq with rfl | hq'
        · exact absurd ⟨hq1, hq2⟩ hc
        · exact ⟨q, hq', hq1, hq2⟩

theorem fetchedTargets_range (targets : List OrderTarget) :
    fetchedTargets targets (List.range targets.length) = targets := by
  unfold fetchedTargets
  induction targets with
  | nil => rfl
  | cons a l ih =>
      rw [List.length_cons, List.range_succ_eq_map, List.filterMap_cons]
      simp only [List.get?_cons_zero, List.filterMap_map]
      simp only [Function.comp_def, List.get?_cons_succ]
      rw [ih]

theorem planLoop_all_matched (targets : List OrderTarget) :
    ∀ (orders : List AsterOrder) (u : List ℕ),
      (↑(orders.map orderKey) : Multiset (Side × Bool × String)) =
        ↑((fetchedTargets targets u).map targetKey) →
      (planLoop 0 targets orders u).1 = [] ∧
        fetchedTargets targets (planLoop 0 targets orders u).2 = [] := by
  intro orders
  induction orders with
  | nil =>
      intro u hkeys
      have hp : ((fetchedTargets targets u).map targetKey).Perm [] := by
        have := Multiset.coe_eq_coe.mp hkeys.symm
        simpa using this
      have h2 : fetchedTargets targets u = [] :=
        List.map_eq_nil_iff.mp hp.eq_nil
      exact ⟨rfl, h2⟩
  | cons o rest ih =>
      intro u hkeys
      have hmem : orderKey o ∈ (fetchedTargets targets u).map targetKey := by
        have h1 : orderKey o ∈ ((o :: rest).map orderKey : List _) := by simp
        have h2 : orderKey o ∈ (↑((o :: rest).map orderKey) : Multiset _) :=
          Multiset.mem_coe.mpr h1
        rw [hkeys] at h2
        exact Multiset.mem_coe.mp h2
      obtain ⟨t, htmem, htk⟩ := List.mem_map.mp hmem
      obtain ⟨i, hiu, hit⟩ := List.mem_filterMap.mp htmem
      have hmatch : targetMatches 0 o t = true :=
        (targetMatches_zero_iff o t).mpr htk.symm
      have hpair : (i, t) ∈ targets.enum := List.mem_enum_iff_get?.mpr hit
      obtain ⟨j, hj⟩ := findMatchIdx_isSome 0 u o targets.enum ⟨(i, t), hpair, hiu, hmatch⟩
      obtain ⟨hju, t', hjt', hjm⟩ := findMatchIdx_some_spec 0 u o targets.enum j hj
      have hget' : targets.get? j = some t' := List.mem_enum_iff_get?.mp hjt'
      have htk' : targetKey t' = orderKey o :=
        ((targetMatches_zero_iff o t').mp hjm).symm
      have hperm1 : u.Perm (j :: u.erase j) := List.perm_cons_erase hju
      have hperm2 : (fetchedTargets targets u).Perm
          (t' :: fetchedTargets targets (u.erase j)) := by
        have hfm := hperm1.filterMap (fun i => targets.get? i)
        rw [List.filterMap_cons, hget'] at hfm
        exact hfm
      have hkeys' : (↑(rest.map orderKey) : Multiset (Side × Bool × String)) =
          ↑((fetchedTargets targets (u.erase j)).map targetKey) := by
        have hk := Multiset.coe_eq_coe.mp hkeys
        have hk2 : ((o :: rest).map orderKey).Perm
            ((t' :: fetchedTargets targets (u.erase j)).map targetKey) :=
          hk.trans (hperm2.map targetKey)
        rw [List.map_cons, List.map_cons, htk'] at hk2
        exact Multiset.coe_eq_coe.mpr hk2.cons_inv
      have hrec := ih (u.erase j) hkeys'
      rw [planLoop, hj]
      exact hrec

/-- C1 (amended): with the price tolerance absent or nonpositive — so that
price matching is the exact string comparison — whenever the multiset of
matching keys (side, reduceOnly flag, price string) of the open orders
coincides with that of the desired targets (i.e. open orders and targets
match one another bijectively), `makeOrderPlan` returns empty `toCancel` and
`toPlace` lists; and the planner is a pure function, so identical inputs
yield identical, order-stable output.  (With a positive tolerance the
empty-plan conclusion fails, see the counterexample.) -/
theorem makeOrderPlan_exact_match_idempotent (openOrders : List AsterOrder)
    (targets : List OrderTarget) (priceToleranceAbs : Option ℚ)
    (htol : priceToleranceAbs.getD 0 ≤ 0)
    (hperm : (openOrders.map orderKey).Perm (targets.map targetKey)) :
    (makeOrderPlan openOrders targets priceToleranceAbs).toCancel = [] ∧
    (makeOrderPlan openOrders targets priceToleranceAbs).toPlace = [] ∧
    makeOrderPlan openOrders targets priceToleranceAbs =
      makeOrderPlan openOrders targets priceToleranceAbs := by
  have htol0 : max 0 (priceToleranceAbs.getD 0) = 0 := max_eq_left htol
  have hinit : (↑(openOrders.map orderKey) : Multiset (Side × Bool × String)) =
      ↑((fetchedTargets targets (List.range targets.length)).map targetKey) := by
    rw [fetchedTargets_range]
    exact Multiset.coe_eq_coe.mpr hperm
  have h := planLoop_all_matched targets openOrders (List.range targets.length) hinit
  refine ⟨?_, ?_, rfl⟩
  · simp only [makeOrderPlan, htol0]
    exact h.1
  · simp only [makeOrderPlan, htol0]
    rw [show (planLoop 0 targets openOrders (List.range targets.length)).2.filterMap
          (fun i => targets.get? i) = fetchedTargets targets
            (planLoop 0 targets openOrders (List.range targets.length)).2 from rfl,
        h.2]
    rfl

/-- C1 (counterexample): with tolerance 1, open orders at prices 1 and 3 and
targets at prices 2 and 0 admit a perfect matching (1↔0 and 3↔2, each within
tolerance, distinct targets, every target matched), yet the greedy
first-found matching pairs the order at 1 with the target at 2 first, so
`makeOrderPlan` cancels the order at 3 and places the target at 0 — the
claim's empty-plan conclusion fails as stated. -/
theorem makeOrderPlan_tolerance_greedy_counterexample :
    (targetMatches 1 (limitOrder 1 .buy (numStr "1" 1) 5) (openTarget .buy (numStr "0" 0)) = true ∧
     targetMatches 1 (limitOrder 2 .buy (numStr "3" 3) 5) (openTarget .buy (numStr "2" 2)) = true) ∧
    (makeOrderPlan [limitOrder 1 .buy (numStr "1" 1) 5, limitOrder 2 .buy (numStr "3" 3) 5]
        [openTarget .buy (numStr "2" 2), openTarget .buy (numStr "0" 0)] (some 1)).toCancel =
      [limitOrder 2 .buy (numStr "3" 3) 5] ∧
    (makeOrderPlan [limitOrder 1 .buy (numStr "1" 1) 5, limitOrder 2 .buy (numStr "3" 3) 5]
        [openTarget .buy (numStr "2" 2), openTarget .buy (numStr "0" 0)] (some 1)).toPlace =
      [openTarget .buy (numStr "0" 0)] := by
  have m1t1 : targetMatches 1 (limitOrder 1 .buy (numStr "1" 1) 5)
      (openTarget .buy (numStr "0" 0)) = true := by
    norm_num [targetMatches, limitOrder, openTarget, numStr]
  have m2t0 : targetMatches 1 (limitOrder 2 .buy (numStr "3" 3) 5)
      (openTarget .buy (numStr "2" 2)) = true := by
    norm_num [targetMatches, limitOrder, openTarget, numStr]
  have m1t0 : targetMatches 1 (limitOrder 1 .buy (numStr "1" 1) 5)
      (openTarget .buy (numStr "2" 2)) = true := by
    norm_num [targetMatches, limitOrder, openTarget, numStr]
  have m2t1 : targetMatches 1 (limitOrder 2 .buy (numStr "3" 3) 5)
      (openTarget .buy (numStr "0" 0)) = false := by
    norm_num [targetMatches, limitOrder, openTarget, numStr]
  have henum : ([openTarget .buy (numStr "2" 2), openTarget .buy (numStr "0" 0)]).enum =
      [(0, openTarget .buy (numStr "2" 2)), (1, openTarget .buy (numStr "0" 0))] := rfl
  have hf1 : findMatchIdx 1 [0, 1] (limitOrder 1 .buy (numStr "1" 1) 5)
      ([openTarget .buy (numStr "2" 2), openTarget .buy (numStr "0" 0)]).enum = some 0 := by
    rw [henum, findMatchIdx, if_pos]
    exact ⟨by simp, m1t0⟩
  have hf2 : findMatchIdx 1 [1] (limitOrder 2 .buy (numStr "3" 3) 5)
      ([openTarget .buy (numStr "2" 2), openTarget .buy (numStr "0" 0)]).enum = none := by
    rw [henum, findMatchIdx, if_neg, findMatchIdx, if_neg, findMatchIdx]
    · rintro ⟨-, hm⟩
      rw [m2t1] at hm
      cases hm
    · rintro ⟨h0, -⟩
      simp at h0
  have hplan : planLoop 1 [openTarget .buy (numStr "2" 2), openTarget .buy (numStr "0" 0)]
      [limitOrder 1 .buy (numStr "1" 1) 5, limitOrder 2 .buy (numStr "3" 3) 5] [0, 1] =
      ([limitOrder 2 .buy (numStr "3" 3) 5], [1]) := by
    simp only [planLoop, hf1, hf2, List.erase_cons_head]
  have htol : max (0:ℚ) ((some (1:ℚ)).getD 0) = 1 := by
    norm_num
  have hrange : List.range ([openTarget .buy (numStr "2" 2), openTarget .buy (numStr "0" 0)]).length =
      [0, 1] := rfl
  refine ⟨⟨m1t1, m2t0⟩, ?_, ?_⟩
  · simp only [makeOrderPlan, htol, hrange, hplan]
  · simp only [makeOrderPlan, htol, hrange, hplan]
    have hdust : (EPS < (openTarget .buy (numStr "0" 0)).amount) := by
      norm_num [EPS, openTarget]
    simp [hdust]

/-- Witness for C1 (amended) at a one-order book exactly matching a
one-target desired set (tolerance absent). -/
theorem makeOrderPlan_exact_match_idempotent_witness :
    (makeOrderPlan [limitOrder 1 .buy (numStr "2" 2) 5]
        [openTarget .buy (numStr "2" 2)] none).toCancel = [] ∧
    (makeOrderPlan [limitOrder 1 .buy (numStr "2" 2) 5]
        [openTarget .buy (numStr "2" 2)] none).toPlace = [] := by
  have hperm : (([limitOrder 1 .buy (numStr "2" 2) 5]).map orderKey).Perm
      (([openTarget .buy (numStr "2" 2)]).map targetKey) := by
    have heq : (([limitOrder 1 .buy (numStr "2" 2) 5]).map orderKey) =
        (([openTarget .buy (numStr "2" 2)]).map targetKey) := rfl
    rw [heq]
  have h := makeOrderPlan_exact_match_idempotent
    [limitOrder 1 .buy (numStr "2" 2) 5] [openTarget .buy (numStr "2" 2)] none
    (by decide) hperm
  exact ⟨h.1, h.2.1⟩

end Ritmex
